import Mathlib

/-!
Verification development for the investment-data ingestion and aggregation
pipeline. The definitions below are shallow embeddings of the Python
services under the repository root:

* `Ingestion.*` — `ingestion-service/app/services/{asset_class_manager,
  investor_manager, commitment_manager, data_processor}.py`
* `CommitmentSvc.*` — `commitment-service/app/services/event_publisher.py`
  and `commitment-service/app/repositories/commitment_repository.py`
* `InvestorSvc.*` — `investor-service/app/services/event_subscriber.py`
  and `investor-service/app/repositories/investor_repository.py`

Remote HTTP calls and the Redis channel are modelled by explicit outcome
oracles passed as arguments; every remote request a function issues is
recorded in a `Call` trace. Python `dict`s keyed by strings are modelled
as insertion-ordered association lists (`Dict` below) with the overwrite
semantics of dict assignment. Python `Decimal`/`float` amounts are
modelled as rationals; the binary64 rounding applied when an amount is
persisted as a Python float is modelled by `InvestorSvc.roundDouble`.
-/

/-! ### Association-list model of Python string dicts -/

/-- A Python `dict[str, str]` as an insertion-ordered association list. -/
abbrev Dict := List (String × String)

/-- Lookup (`d.get(k)` / `d[k]`): first entry with the given key. -/
def dget : Dict → String → Option String
  | [], _ => none
  | p :: rest, k => if p.1 = k then some p.2 else dget rest k

/-- Key-membership test (`k in d`). -/
def dmem (m : Dict) (k : String) : Bool := (dget m k).isSome

/-- Assignment `d[k] = v`: overwrite in place if the key exists, else append. -/
def dput : Dict → String → String → Dict
  | [], k, v => [(k, v)]
  | p :: rest, k, v => if p.1 = k then (k, v) :: rest else p :: dput rest k v

/-- Python `d.update(d2)`: assign every entry of `d2` into `d`. -/
def dupdate (m m2 : Dict) : Dict := m2.foldl (fun acc p => dput acc p.1 p.2) m

/-- Python truthiness filter used on id values (`if actual_id:`):
`None` and the empty string are falsy. -/
def truthyId : Option String → Option String
  | none => none
  | some i => if i = "" then none else some i

/-- Insert `name -> id` only when the id is truthy, mirroring the
`if actual_id: name_to_id[name] = actual_id` pattern. -/
def insertIfTruthy (m : Dict) (name : String) (o : Option String) : Dict :=
  match truthyId o with
  | some i => dput m name i
  | none => m

namespace Ingestion

/-! ### Remote-call trace and oracle outcomes (ingestion-service) -/

/-- Payload sent for one asset class (`AssetClassData` in
`asset_class_manager.py`). -/
structure AssetClassData where
  description : String
  status : String
deriving DecidableEq

/-- Payload sent for one investor (`InvestorData` in `investor_manager.py`). -/
structure InvestorData where
  investor_type : String
  country : String
  date_added : String
deriving DecidableEq

/-- One row of commitment data from the CSV parser (`CommitmentData`). -/
structure CommitmentData where
  investor_name : String
  asset_class_name : String
  amount : ℚ
  currency : String
deriving DecidableEq

/-- One element of the bulk request body built by
`CommitmentManager.bulk_create_commitments`. -/
structure CommitmentCreateRequest where
  investor_id : String
  asset_class_id : String
  amount : ℚ
  currency : String
deriving DecidableEq

/-- The composite dedup key
`investor_id:asset_class_id:amount:currency`. The Python code renders it
as a colon-joined string; ids are UUIDs and currencies ISO codes (no
colons) and the amount text is determined by the float value, so string
equality of renderings coincides with componentwise equality and the key
is modelled as the tuple of its components. -/
structure DedupKey where
  investor_id : String
  asset_class_id : String
  amount : ℚ
  currency : String
deriving DecidableEq

/-- Trace entry: one remote HTTP request issued by the ingestion service. -/
inductive Call where
  | getAssetClasses : Call
  | postBulkAssetClasses (n : Nat) : Call
  | postAssetClass (name : String) : Call
  | getInvestorsPage (page : Nat) : Call
  | postBulkInvestors (n : Nat) : Call
  | postInvestor (name : String) : Call
  | getCommitmentsPage (page : Nat) : Call
  | postBulkCommitments (body : List CommitmentCreateRequest) : Call
deriving DecidableEq

/-- One element of a bulk-create response body; `.get` of the `id` field
(`None` when the field is missing). -/
structure RespItem where
  id : Option String
deriving DecidableEq

/-- Outcome of a bulk-create POST: transport exception, or a response with
a status code and a JSON body (`none` models a body that is not a list,
rejected by the `isinstance(..., list)` guard). -/
inductive BulkRespOutcome where
  | exc : BulkRespOutcome
  | resp (status : Nat) (body : Option (List RespItem)) : BulkRespOutcome

/-- Outcome of a single asset-class create POST. `dataId` is the id nested
under the `data` field when present, `topId` a top-level id field. -/
inductive ACCreateOutcome where
  | exc : ACCreateOutcome
  | resp (status : Nat) (dataId : Option String) (topId : Option String) : ACCreateOutcome

/-- Outcome of a single investor create POST; `idField` is the top-level
id field when present. -/
inductive InvCreateOutcome where
  | exc : InvCreateOutcome
  | resp (status : Nat) (idField : Option String) : InvCreateOutcome

/-- Outcome of one page request of the investor list endpoint. -/
inductive InvPage where
  | exc : InvPage
  | resp (status : Nat) (investors : List (String × String)) (has_next : Bool) : InvPage

/-- Outcome of one page request of the commitment list endpoint; `items`
are the dedup keys of the commitments on the page. -/
inductive ComPage where
  | exc : ComPage
  | resp (status : Nat) (items : List DedupKey) (has_next : Bool) : ComPage

/-- Outcome of the commitment bulk-create POST; `created` is the length of
the returned JSON array. -/
inductive ComBulkOutcome where
  | exc : ComBulkOutcome
  | resp (status : Nat) (created : Nat) : ComBulkOutcome

/-! ### AssetClassManager (`asset_class_manager.py`) -/

/-- `AssetClassManager._fetch_existing_asset_classes`: one GET of the
asset-class list (no status check in the source); on exception the
partial dict (still empty) is returned; otherwise entries whose name is
among the requested names are kept. -/
def _fetch_existing_asset_classes (names : List String)
    (out : Option (List (String × String))) : Dict × List Call :=
  (match out with
   | none => []
   | some l => (l.filter (fun p => p.1 ∈ names)).foldl (fun m p => dput m p.1 p.2) []
  , [Call.getAssetClasses])

/-- `AssetClassManager._create_single_asset_class`: returns the created id
on HTTP 201, preferring the id nested under `data`; `none` on any
failure (exception, other status, or no id field). -/
def _create_single_asset_class (out : ACCreateOutcome) : Option String :=
  match out with
  | .exc => none
  | .resp status dataId topId =>
      if status = 201 then
        match dataId with
        | some i => some i
        | none => topId
      else none

/-- `AssetClassManager._create_asset_classes_individually_fallback`: one
create POST per entity; per-entity failures are captured, successes with
a truthy id are collected. -/
def _create_asset_classes_individually_fallback
    (items : List (String × AssetClassData)) (indiv : String → ACCreateOutcome) :
    Dict × List Call :=
  (items.foldl (fun m p => insertIfTruthy m p.1 (_create_single_asset_class (indiv p.1))) []
  , items.map (fun p => Call.postAssetClass p.1))

/-- The positional zip of a bulk-create response body back onto the
requested names (the `for i, created in enumerate(...)` loop, guarded by
`i < len(name_order)` and id truthiness). -/
def zipBulkIds (names : List String) : List RespItem → Nat → Dict → Dict
  | [], _, m => m
  | it :: rest, i, m =>
      let m2 := if i < names.length then insertIfTruthy m (names.getD i "") it.id else m
      zipBulkIds names rest (i + 1) m2

/-- `AssetClassManager._bulk_create_asset_classes`: one bulk POST; on
HTTP 200 with a list body the response is zipped back positionally; on a
transport exception or any other status the individual-create fallback
runs. -/
def _bulk_create_asset_classes (items : List (String × AssetClassData))
    (out : BulkRespOutcome) (indiv : String → ACCreateOutcome) : Dict × List Call :=
  if items = [] then ([], [])
  else
    let names := items.map (·.1)
    let postCall := Call.postBulkAssetClasses items.length
    match out with
    | .exc =>
        let fb := _create_asset_classes_individually_fallback items indiv
        (fb.1, postCall :: fb.2)
    | .resp status body =>
        if status = 200 then
          (match body with
           | some l => zipBulkIds names l 0 []
           | none => [], [postCall])
        else
          let fb := _create_asset_classes_individually_fallback items indiv
          (fb.1, postCall :: fb.2)

/-- `AssetClassManager.bulk_create_asset_classes`: snapshot the existing
asset classes, create only the missing ones, and union the two maps. -/
def bulk_create_asset_classes (items : List (String × AssetClassData))
    (fetchOut : Option (List (String × String))) (bulkOut : BulkRespOutcome)
    (indiv : String → ACCreateOutcome) : Dict × List Call :=
  if items = [] then ([], [])
  else
    let fe := _fetch_existing_asset_classes (items.map (·.1)) fetchOut
    let newItems := items.filter (fun p => ¬ dmem fe.1 p.1)
    if newItems = [] then (fe.1, fe.2)
    else
      let bc := _bulk_create_asset_classes newItems bulkOut indiv
      (dupdate fe.1 bc.1, fe.2 ++ bc.2)

/-! ### InvestorManager (`investor_manager.py`) -/

/-- The pagination loop of `InvestorManager._fetch_existing_investors`:
accumulate page items while HTTP 200 and `has_next`; stop on the first
non-200 page; a transport exception propagates to the outer handler
(`none`). Oracle exhaustion is treated as the end of pagination. -/
def fetchInvestorPagesLoop : List InvPage → Nat → List (String × String) →
    Option (List (String × String)) × List Call
  | [], _, acc => (some acc, [])
  | .exc :: _, page, _ => (none, [Call.getInvestorsPage page])
  | .resp status items has_next :: rest, page, acc =>
      if status = 200 then
        if has_next then
          let r := fetchInvestorPagesLoop rest (page + 1) (acc ++ items)
          (r.1, Call.getInvestorsPage page :: r.2)
        else (some (acc ++ items), [Call.getInvestorsPage page])
      else (some acc, [Call.getInvestorsPage page])

/-- `InvestorManager._fetch_existing_investors`: paginate the investor
list, then keep entries whose name is among the requested names. On a
transport exception the outer handler returns the name map built so far,
which is still empty because the filtering happens after the loop. -/
def _fetch_existing_investors (names : List String) (pages : List InvPage) :
    Dict × List Call :=
  let r := fetchInvestorPagesLoop pages 1 []
  (match r.1 with
   | none => []
   | some all => (all.filter (fun p => p.1 ∈ names)).foldl (fun m p => dput m p.1 p.2) []
  , r.2)

/-- `InvestorManager._create_single_investor`: returns the created id on
HTTP 201 when the response carries an id field; `none` otherwise. -/
def _create_single_investor (out : InvCreateOutcome) : Option String :=
  match out with
  | .exc => none
  | .resp status idField => if status = 201 then idField else none

/-- `InvestorManager._create_investors_individually_fallback`. -/
def _create_investors_individually_fallback
    (items : List (String × InvestorData)) (indiv : String → InvCreateOutcome) :
    Dict × List Call :=
  (items.foldl (fun m p => insertIfTruthy m p.1 (_create_single_investor (indiv p.1))) []
  , items.map (fun p => Call.postInvestor p.1))

/-- `InvestorManager._bulk_create_investors`: same shape as the
asset-class bulk create. -/
def _bulk_create_investors (items : List (String × InvestorData))
    (out : BulkRespOutcome) (indiv : String → InvCreateOutcome) : Dict × List Call :=
  if items = [] then ([], [])
  else
    let names := items.map (·.1)
    let postCall := Call.postBulkInvestors items.length
    match out with
    | .exc =>
        let fb := _create_investors_individually_fallback items indiv
        (fb.1, postCall :: fb.2)
    | .resp status body =>
        if status = 200 then
          (match body with
           | some l => zipBulkIds names l 0 []
           | none => [], [postCall])
        else
          let fb := _create_investors_individually_fallback items indiv
          (fb.1, postCall :: fb.2)

/-- `InvestorManager.bulk_create_investors`. -/
def bulk_create_investors (items : List (String × InvestorData))
    (pages : List InvPage) (bulkOut : BulkRespOutcome)
    (indiv : String → InvCreateOutcome) : Dict × List Call :=
  if items = [] then ([], [])
  else
    let fe := _fetch_existing_investors (items.map (·.1)) pages
    let newItems := items.filter (fun p => ¬ dmem fe.1 p.1)
    if newItems = [] then (fe.1, fe.2)
    else
      let bc := _bulk_create_investors newItems bulkOut indiv
      (dupdate fe.1 bc.1, fe.2 ++ bc.2)

/-! ### CommitmentManager (`commitment_manager.py`) -/

/-- The body of the `while True` loop of
`CommitmentManager._fetch_existing_commitments`, one oracle outcome per
`client.get`. In the source, a transport exception hits `continue`
(retrying the same page — the page counter is only incremented further
down, on dead code), while ANY received response breaks out of the loop:
a 200 response breaks inside the `try` before the body is parsed, and a
non-200 response breaks at the `if not response or ...` check. The page
counter therefore stays at 1 and the key-accumulation code below the
break is never reached. Oracle exhaustion (the source would keep
retrying) returns the keys accumulated so far. -/
def fetchCommitmentPagesLoop : List ComPage → List DedupKey →
    List DedupKey × List Call
  | [], acc => (acc, [])
  | .exc :: rest, acc =>
      let r := fetchCommitmentPagesLoop rest acc
      (r.1, Call.getCommitmentsPage 1 :: r.2)
  | .resp _ _ _ :: _, acc => (acc, [Call.getCommitmentsPage 1])

/-- `CommitmentManager._fetch_existing_commitments`: run the pagination
loop and return the set of dedup keys it accumulated. -/
def _fetch_existing_commitments (attempts : List ComPage) :
    List DedupKey × List Call :=
  fetchCommitmentPagesLoop attempts []

/-- The request-building loop of
`CommitmentManager.bulk_create_commitments` (lines 84-106): a row is
appended to the bulk body iff both of its names resolve to truthy ids
and its dedup key is not in the pre-fetched set. -/
def buildBulkCommitments (rows : List CommitmentData)
    (investor_name_to_id asset_class_name_to_id : Dict)
    (existing : List DedupKey) : List CommitmentCreateRequest :=
  rows.foldl (fun acc c =>
    match truthyId (dget investor_name_to_id c.investor_name),
          truthyId (dget asset_class_name_to_id c.asset_class_name) with
    | some iid, some aid =>
        if (⟨iid, aid, c.amount, c.currency⟩ : DedupKey) ∈ existing then acc
        else acc ++ [⟨iid, aid, c.amount, c.currency⟩]
    | _, _ => acc) []

/-- `CommitmentManager.bulk_create_commitments`: fetch the dedup
snapshot, build the request body, and POST it when non-empty; the
returned count is the length of the response array on HTTP 200, and 0 on
any failure. -/
def bulk_create_commitments (rows : List CommitmentData)
    (investor_name_to_id asset_class_name_to_id : Dict)
    (comPages : List ComPage) (comBulk : ComBulkOutcome) : Nat × List Call :=
  let fe := _fetch_existing_commitments comPages
  let bulk := buildBulkCommitments rows investor_name_to_id asset_class_name_to_id fe.1
  if bulk = [] then (0, fe.2)
  else
    let post := Call.postBulkCommitments bulk
    match comBulk with
    | .exc => (0, fe.2 ++ [post])
    | .resp status created => (if status = 200 then created else 0, fe.2 ++ [post])

/-! ### DataProcessor (`data_processor.py`) -/

/-- All remote outcomes one ingestion run can observe. -/
structure IngestEnv where
  acFetch : Option (List (String × String))
  acBulk : BulkRespOutcome
  acIndiv : String → ACCreateOutcome
  invPages : List InvPage
  invBulk : BulkRespOutcome
  invIndiv : String → InvCreateOutcome
  comPages : List ComPage
  comBulk : ComBulkOutcome

/-- The structured result dict returned by
`DataProcessor.process_dataframe` (success-rate strings and the summary
sub-dict are derived from the counts and omitted). -/
structure ProcessResult where
  status : String
  error : Option String
  asset_classes_created : Nat
  investors_created : Nat
  commitments_created : Nat
deriving DecidableEq

/-- `DataProcessor._error_result`. -/
def _error_result (msg : String) (ac inv com : Nat) : ProcessResult :=
  ⟨"failed", some msg, ac, inv, com⟩

/-- `DataProcessor._count_valid_commitments`: rows whose two names are
keys of the resolved mappings (`in`-membership, not truthiness). -/
def _count_valid_commitments (rows : List CommitmentData)
    (investor_mapping asset_class_mapping : Dict) : Nat :=
  (rows.filter (fun c =>
    dmem investor_mapping c.investor_name && dmem asset_class_mapping c.asset_class_name)).length

/-- `DataProcessor.process_dataframe` after CSV parsing: `valid` is the
structural-validation verdict and the three lists are the parser output
(unique investors, unique asset classes, commitment rows). -/
def process_dataframe (valid : Bool)
    (investors : List (String × InvestorData))
    (asset_classes : List (String × AssetClassData))
    (commitments : List CommitmentData)
    (env : IngestEnv) : ProcessResult × List Call :=
  if valid = false then (_error_result ("Invalid CSV structure") 0 0 0, [])
  else
    let ac := bulk_create_asset_classes asset_classes env.acFetch env.acBulk env.acIndiv
    if ac.1.length = 0 ∧ asset_classes.length > 0 then
      (_error_result ("Failed to create asset classes") 0 0 0, ac.2)
    else
      let inv := bulk_create_investors investors env.invPages env.invBulk env.invIndiv
      if inv.1.length = 0 ∧ investors.length > 0 then
        (_error_result ("Failed to create investors") ac.1.length 0 0, ac.2 ++ inv.2)
      else
        if _count_valid_commitments commitments inv.1 ac.1 = 0 then
          (_error_result ("No valid commitments: missing dependencies")
            ac.1.length inv.1.length 0, ac.2 ++ inv.2)
        else
          let com := bulk_create_commitments commitments inv.1 ac.1 env.comPages env.comBulk
          (⟨"completed", none, ac.1.length, inv.1.length, com.1⟩,
           ac.2 ++ inv.2 ++ com.2)

end Ingestion

namespace CommitmentSvc

/-! ### EventPublisher and CommitmentRepository (commitment-service) -/

/-- A persisted commitment record (`CommitmentResponse`, timestamps
omitted). -/
structure CommitmentRecord where
  id : String
  investor_id : String
  asset_class_id : String
  amount : ℚ
  currency : String
deriving DecidableEq

/-- What happens when the publisher reaches the Redis `publish` call. -/
inductive PublishOutcome where
  | ok : PublishOutcome
  | redisErr : PublishOutcome
  | otherExc : PublishOutcome
deriving DecidableEq

/-- `EventPublisher.publish_commitment_created`: the `except` clause
catches only the Redis error classes; a `RuntimeError` raised when no
Redis connection exists, or any other non-Redis exception, escapes the
publisher (`Except.error`). -/
def publish_commitment_created (connected : Bool) (out : PublishOutcome) :
    Except Unit Unit :=
  if connected = false then Except.error ()
  else
    match out with
    | .ok => Except.ok ()
    | .redisErr => Except.ok ()
    | .otherExc => Except.error ()

/-- Result of `CommitmentRepository.create_commitment`: whether the row
was durably committed by `connection.commit()`, and the value the call
returns. A `rollback()` issued after the commit does not undo it. -/
structure CreateResult where
  persisted : Bool
  returned : Option CommitmentRecord
deriving DecidableEq

/-- `CommitmentRepository.create_commitment`: insert + commit, re-read
the row, publish the event, return the record. An exception escaping the
publisher lands in the method's `except Exception` handler, which logs,
rolls back (a no-op after the commit) and returns `None`. -/
def create_commitment (rec : CommitmentRecord)
    (insertOk retrieveOk connected : Bool) (pubOut : PublishOutcome) : CreateResult :=
  if insertOk = false then ⟨false, none⟩
  else if retrieveOk = false then ⟨true, none⟩
  else
    match publish_commitment_created connected pubOut with
    | .ok _ => ⟨true, some rec⟩
    | .error _ => ⟨true, none⟩

/-- `CommitmentRepository.bulk_create_commitments`: insert the batch,
commit, re-read the rows, then publish one event per created record via
`asyncio.gather(..., return_exceptions=True)`, so every publish
exception is captured per task and the created batch is returned
unconditionally. -/
def bulk_create_commitments (recs : List CommitmentRecord) (dbOk : Bool)
    (connected : Bool) (pubOuts : Nat → PublishOutcome) : List CommitmentRecord :=
  if dbOk = false then []
  else
    -- one publish task per created record; exceptions are captured per
    -- task by the gather and only logged, never returned
    let _ := (List.range recs.length).map
      (fun i => publish_commitment_created connected (pubOuts i))
    recs

end CommitmentSvc

namespace InvestorSvc

/-! ### Binary64 rounding at the persistence boundary -/

/-- Round-to-nearest, ties-to-even at 53 significant bits: the value
stored when `InvestorRepository.update_commitment_metrics` converts the
exact `Decimal` total with `float(total_amount)`. Normal range only
(overflow and subnormal magnitudes below 2^-1021 do not arise for the
commitment totals considered here). -/
def roundDouble (q : ℚ) : ℚ :=
  if q = 0 then 0
  else
    let e : ℤ := Int.log 2 |q|
    let u : ℚ := |q| * 2 ^ (52 - e)
    let n : ℤ := ⌊u⌋
    let n2 : ℤ :=
      if u - n < 1 / 2 then n
      else if 1 / 2 < u - n then n + 1
      else if 2 ∣ n then n else n + 1
    (if q < 0 then -1 else 1) * n2 * 2 ^ (e - 52)

/-! ### InvestorRepository and EventSubscriber (investor-service) -/

/-- The denormalized per-investor rollup
(`commitment_count`, `total_commitment_amount`). -/
structure InvestorAgg where
  commitment_count : ℕ
  total_commitment_amount : ℚ
deriving DecidableEq

/-- The investor collection, keyed by investor id. -/
abbrev Store := List (String × InvestorAgg)

/-- Lookup by id (`InvestorRepository.get_investor_by_id`). -/
def get_investor_by_id : Store → String → Option InvestorAgg
  | [], _ => none
  | p :: rest, k => if p.1 = k then some p.2 else get_investor_by_id rest k

/-- `InvestorRepository.update_commitment_metrics`: `$set` both metric
fields on the matching document; the total is stored through
`float(total_amount)` (modelled by `roundDouble`). Returns whether a
document was modified. -/
def update_commitment_metrics (store : Store) (investor_id : String)
    (commitment_count : ℕ) (total_amount : ℚ) : Store × Bool :=
  match store with
  | [] => ([], false)
  | p :: rest =>
      if p.1 = investor_id then
        ((investor_id, ⟨commitment_count, roundDouble total_amount⟩) :: rest, true)
      else
        let r := update_commitment_metrics rest investor_id commitment_count total_amount
        (p :: r.1, r.2)

/-- A decoded `commitment_created` event payload as the subscriber sees
it after `json.loads`: `.get` fields are `Option`s; `amount = none`
models a missing or non-convertible amount field. -/
structure EventData where
  event_type : Option String
  investor_id : Option String
  amount : Option ℚ

/-- A raw channel message: `none` models a body that is not valid JSON. -/
abbrev Msg := Option EventData

/-- The `try` body of `EventSubscriber._handle_commitment_created`; an
`Except.error` is a data error caught by the handler's own
`except (KeyError, ValueError, TypeError)` clause. When the investor is
not found the event is dropped with a warning and the store is
untouched. -/
def handleCommitmentCreatedCore (store : Store) (ev : EventData) :
    Except Unit Store :=
  match ev.investor_id with
  | none => Except.error ()
  | some investor_id =>
      match ev.amount with
      | none => Except.error ()
      | some amount =>
          match get_investor_by_id store investor_id with
          | none => Except.ok store
          | some inv =>
              let new_count := inv.commitment_count + 1
              let new_total := inv.total_commitment_amount + amount
              Except.ok (update_commitment_metrics store investor_id new_count new_total).1

/-- `EventSubscriber._handle_commitment_created` with its exception
handler: a caught data error leaves the store unchanged. -/
def _handle_commitment_created (store : Store) (ev : EventData) : Store :=
  match handleCommitmentCreatedCore store ev with
  | .ok s => s
  | .error _ => store

/-- `EventSubscriber._handle_message`: drop undecodable JSON, events with
a falsy `investor_id`, and unknown event types; dispatch
`commitment_created` events to the handler. -/
def _handle_message (store : Store) (msg : Msg) : Store :=
  match msg with
  | none => store
  | some ev =>
      match ev.investor_id with
      | none => store
      | some iid =>
          if iid = "" then store
          else if ev.event_type = some ("commitment_created") then
            _handle_commitment_created store ev
          else store

/-- The message-consumption order of the `start_listening` loop: messages
are handled one at a time in arrival order (polling backoff and
cooperative cancellation are timing concerns outside this model). -/
def processMessages (store : Store) (msgs : List Msg) : Store :=
  msgs.foldl _handle_message store

/-- The per-event aggregate update as actually persisted: the handler
computes `count + 1` and `total + amount` exactly (Python `Decimal`),
and the repository stores the total as a binary64 float. -/
def applyCommitmentEvent (agg : InvestorAgg) (amount : ℚ) : InvestorAgg :=
  ⟨agg.commitment_count + 1, roundDouble (agg.total_commitment_amount + amount)⟩

/-- The same update with the persistence boundary kept exact (no float
conversion): the arithmetic of `_handle_commitment_created` itself. -/
def applyCommitmentEventExact (agg : InvestorAgg) (amount : ℚ) : InvestorAgg :=
  ⟨agg.commitment_count + 1, agg.total_commitment_amount + amount⟩

/-- Consume a sequence of `commitment_created` amounts for one investor,
one read-modify-write per event, with the float persistence boundary. -/
def consumeAll (agg : InvestorAgg) (amounts : List ℚ) : InvestorAgg :=
  amounts.foldl applyCommitmentEvent agg

/-- Consume a sequence of amounts with exact arithmetic throughout. -/
def consumeAllExact (agg : InvestorAgg) (amounts : List ℚ) : InvestorAgg :=
  amounts.foldl applyCommitmentEventExact agg

end InvestorSvc

/-! ## Dictionary lemmas -/

theorem dget_dput (m : Dict) (k v x : String) :
    dget (dput m k v) x = if k = x then some v else dget m x := by
  induction m with
  | nil => simp [dput, dget]
  | cons p rest ih =>
      by_cases hpk : p.1 = k
      · by_cases hkx : k = x <;> simp [dput, dget, hpk, hkx]
      · by_cases hpx : p.1 = x
        · have hkx : ¬ k = x := fun h => hpk (h ▸ hpx)
          have hxk : ¬ x = k := fun h => hkx h.symm
          simp [dput, dget, hpk, hpx, hkx, hxk]
        · simp [dput, dget, hpk, hpx, ih]

theorem dget_insertIfTruthy (m : Dict) (n x : String) (o : Option String) :
    dget (insertIfTruthy m n o) x =
      if n = x then (match truthyId o with | some v => some v | none => dget m x)
      else dget m x := by
  unfold insertIfTruthy
  cases h : truthyId o with
  | none => simp
  | some v => simp [dget_dput]

theorem dmem_foldl_dput (l : List (String × String)) (m : Dict) (x : String)
    (h : dmem (l.foldl (fun acc p => dput acc p.1 p.2) m) x = true) :
    x ∈ l.map (·.1) ∨ dmem m x = true := by
  induction l generalizing m with
  | nil => exact Or.inr h
  | cons p rest ih =>
      rcases ih (dput m p.1 p.2) (by simpa using h) with h1 | h2
      · exact Or.inl (List.mem_cons_of_mem _ h1)
      · unfold dmem at h2
        rw [dget_dput] at h2
        by_cases hp : p.1 = x
        · exact Or.inl (hp ▸ List.mem_cons_self _ _)
        · rw [if_neg hp] at h2
          exact Or.inr h2

theorem dmem_foldl_insertIfTruthy {β : Type} (l : List (String × β))
    (f : String × β → Option String) (m : Dict) (x : String)
    (h : dmem (l.foldl (fun acc p => insertIfTruthy acc p.1 (f p)) m) x = true) :
    x ∈ l.map (·.1) ∨ dmem m x = true := by
  induction l generalizing m with
  | nil => exact Or.inr h
  | cons p rest ih =>
      rcases ih (insertIfTruthy m p.1 (f p)) (by simpa using h) with h1 | h2
      · exact Or.inl (List.mem_cons_of_mem _ h1)
      · unfold dmem at h2
        rw [dget_insertIfTruthy] at h2
        by_cases hp : p.1 = x
        · exact Or.inl (hp ▸ List.mem_cons_self _ _)
        · rw [if_neg hp] at h2
          exact Or.inr h2

theorem dmem_dupdate (m m2 : Dict) (x : String)
    (h : dmem (dupdate m m2) x = true) :
    dmem m x = true ∨ x ∈ m2.map (·.1) := by
  unfold dupdate at h
  rcases dmem_foldl_dput m2 m x h with h1 | h2
  · exact Or.inr h1
  · exact Or.inl h2

/-! ## C8: the snapshot pagination loops -/

theorem fetchCommitmentPagesLoop_fst (l : List Ingestion.ComPage)
    (acc : List Ingestion.DedupKey) :
    (Ingestion.fetchCommitmentPagesLoop l acc).1 = acc := by
  induction l with
  | nil => rfl
  | cons p rest ih =>
      cases p with
      | exc => simpa [Ingestion.fetchCommitmentPagesLoop] using ih
      | resp status items has_next => rfl

/-- C8: the claim says both snapshot pagination loops stop at the first
non-success page and return the entries accumulated from the successful
pages seen before stopping. The commitment dedup fetch
(`_fetch_existing_commitments`) never does: its loop breaks out on any
HTTP 200 before the page body is parsed (and breaks on any non-200
response as well), so the accumulated key set it returns is empty for
EVERY sequence of page outcomes — the page-parsing code is unreachable —
and on a transport exception it retries page 1 without ever advancing. -/
theorem c8_commitment_fetch_always_empty (attempts : List Ingestion.ComPage) :
    (Ingestion._fetch_existing_commitments attempts).1 = [] :=
  fetchCommitmentPagesLoop_fst attempts []

/-- Helper restating the same fact for use in other developments. -/
theorem fetch_existing_commitments_nil (attempts : List Ingestion.ComPage) :
    (Ingestion._fetch_existing_commitments attempts).1 = [] :=
  fetchCommitmentPagesLoop_fst attempts []

/-! ## C9: the zero-row run -/

/-- C9: a structurally valid batch that parses to zero investors, zero
asset classes and zero commitment rows makes the orchestrator return at
once with all three created-counts at 0 and an empty remote-call trace:
both resolvers short-circuit on their empty inputs and the run ends at
the valid-commitment check before the commitment manager (and its
snapshot fetch) is ever invoked. -/
theorem c9_zero_row_input (env : Ingestion.IngestEnv) :
    (Ingestion.process_dataframe true [] [] [] env).1.asset_classes_created = 0 ∧
    (Ingestion.process_dataframe true [] [] [] env).1.investors_created = 0 ∧
    (Ingestion.process_dataframe true [] [] [] env).1.commitments_created = 0 ∧
    (Ingestion.process_dataframe true [] [] [] env).2 = [] := by
  refine ⟨rfl, rfl, rfl, rfl⟩

/-! ## C6: dropped events for unknown investors -/

/-- C6: a `commitment_created` event whose investor id is not in the
store is handled without raising (the core body returns cleanly rather
than via the exception handler), writes nothing to any aggregate, and
the consumer loop goes on to process the remaining messages exactly as
if the event had not been delivered. -/
theorem c6_unknown_investor_dropped (store : InvestorSvc.Store) (iid : String)
    (amt : ℚ) (rest : List InvestorSvc.Msg)
    (hmiss : InvestorSvc.get_investor_by_id store iid = none) (hne : iid ≠ "") :
    InvestorSvc.handleCommitmentCreatedCore store
        ⟨some ("commitment_created"), some iid, some amt⟩ = Except.ok store ∧
    InvestorSvc._handle_message store
        (some ⟨some ("commitment_created"), some iid, some amt⟩) = store ∧
    InvestorSvc.processMessages store
        (some ⟨some ("commitment_created"), some iid, some amt⟩ :: rest) =
      InvestorSvc.processMessages store rest := by
  have hcore : InvestorSvc.handleCommitmentCreatedCore store
      ⟨some ("commitment_created"), some iid, some amt⟩ = Except.ok store := by
    simp [InvestorSvc.handleCommitmentCreatedCore, hmiss]
  have hmsg : InvestorSvc._handle_message store
      (some ⟨some ("commitment_created"), some iid, some amt⟩) = store := by
    simp [InvestorSvc._handle_message, hne, InvestorSvc._handle_commitment_created, hcore]
  refine ⟨hcore, hmsg, ?_⟩
  simp [InvestorSvc.processMessages, hmsg]

/-- Witness for C6 at a concrete store and event. -/
theorem c6_unknown_investor_dropped_witness :
    InvestorSvc.handleCommitmentCreatedCore [(("inv-1" : String), ⟨2, 50⟩)]
        ⟨some ("commitment_created"), some ("ghost"), some 7⟩ =
      Except.ok [(("inv-1" : String), ⟨2, 50⟩)] ∧
    InvestorSvc._handle_message [(("inv-1" : String), ⟨2, 50⟩)]
        (some ⟨some ("commitment_created"), some ("ghost"), some 7⟩) =
      [(("inv-1" : String), ⟨2, 50⟩)] ∧
    InvestorSvc.processMessages [(("inv-1" : String), ⟨2, 50⟩)]
        (some ⟨some ("commitment_created"), some ("ghost"), some 7⟩ :: [none]) =
      InvestorSvc.processMessages [(("inv-1" : String), ⟨2, 50⟩)] [none] :=
  c6_unknown_investor_dropped [(("inv-1" : String), ⟨2, 50⟩)] ("ghost") 7 [none]
    (by simp [InvestorSvc.get_investor_by_id]) (by decide)

/-! ## C3: publish failures and commitment creation -/

/-- C3 as stated is too strong: it is refuted when the publish step
fails with a NON-Redis exception. The publisher's `except` clause
catches only the Redis error classes, so e.g. the `RuntimeError` raised
when no Redis connection exists — or any other non-Redis exception —
escapes `publish_commitment_created`, lands in `create_commitment`'s own
`except Exception` handler, and makes the call return `None`: the
creation is reported as failed even though the row is already
committed. -/
theorem c3_counterexample :
    (CommitmentSvc.create_commitment ⟨"c-1", "inv-1", "ac-1", 100, "USD"⟩
        true true true CommitmentSvc.PublishOutcome.otherExc).persisted = true ∧
    (CommitmentSvc.create_commitment ⟨"c-1", "inv-1", "ac-1", 100, "USD"⟩
        true true true CommitmentSvc.PublishOutcome.otherExc).returned = none := by
  constructor <;> rfl

/-- C3 amended: a publish failure of the channel-error kind (the Redis
error classes the publisher catches) is logged and swallowed — the
single-create call still returns the created commitment and the row
stays committed; and in the bulk path every per-record publish outcome
is captured by the gather, so the created batch is returned whatever the
publish outcomes are. Only a non-Redis exception escaping the publisher
(see the counterexample) breaks this. -/
theorem c3_amended (rec : CommitmentSvc.CommitmentRecord)
    (out : CommitmentSvc.PublishOutcome)
    (hout : out ≠ CommitmentSvc.PublishOutcome.otherExc) :
    (CommitmentSvc.create_commitment rec true true true out).persisted = true ∧
    (CommitmentSvc.create_commitment rec true true true out).returned = some rec ∧
    (∀ (recs : List CommitmentSvc.CommitmentRecord) (connected : Bool)
        (pubOuts : Nat → CommitmentSvc.PublishOutcome),
      CommitmentSvc.bulk_create_commitments recs true connected pubOuts = recs) := by
  refine ⟨?_, ?_, fun recs connected pubOuts => rfl⟩ <;>
    cases out <;>
      simp [CommitmentSvc.create_commitment, CommitmentSvc.publish_commitment_created] at hout ⊢

/-- Witness for C3 at a concrete record and a Redis publish error. -/
theorem c3_amended_witness :
    (CommitmentSvc.create_commitment ⟨"c-2", "inv-2", "ac-2", 250, "EUR"⟩
        true true true CommitmentSvc.PublishOutcome.redisErr).persisted = true ∧
    (CommitmentSvc.create_commitment ⟨"c-2", "inv-2", "ac-2", 250, "EUR"⟩
        true true true CommitmentSvc.PublishOutcome.redisErr).returned =
      some ⟨"c-2", "inv-2", "ac-2", 250, "EUR"⟩ ∧
    CommitmentSvc.bulk_create_commitments [⟨"c-2", "inv-2", "ac-2", 250, "EUR"⟩]
      true false (fun _ => CommitmentSvc.PublishOutcome.otherExc) =
      [⟨"c-2", "inv-2", "ac-2", 250, "EUR"⟩] := by
  have h := c3_amended ⟨"c-2", "inv-2", "ac-2", 250, "EUR"⟩
    CommitmentSvc.PublishOutcome.redisErr (by decide)
  exact ⟨h.1, h.2.1, h.2.2 [⟨"c-2", "inv-2", "ac-2", 250, "EUR"⟩] false
    (fun _ => CommitmentSvc.PublishOutcome.otherExc)⟩

/-! ## C1: the dedup membership filter -/

/-- C1: the claim requires that, with no concurrent writers, a candidate
whose dedup key equals that of an already-persisted commitment is
excluded from the bulk-create request. It is not: the snapshot fetch
returns the empty key set even when the store serves a page (HTTP 200,
final page) containing exactly that key, so the duplicate candidate
passes the membership filter and the bulk-create request posted to the
commitment store contains it. -/
theorem c1_persisted_duplicate_included :
    (Ingestion._fetch_existing_commitments
        [Ingestion.ComPage.resp 200 [⟨"inv-1", "ac-1", 100, "USD"⟩] false]).1 = [] ∧
    Ingestion.buildBulkCommitments
        [⟨"Alice", "PE", 100, "USD"⟩]
        [("Alice", "inv-1")] [("PE", "ac-1")]
        (Ingestion._fetch_existing_commitments
          [Ingestion.ComPage.resp 200 [⟨"inv-1", "ac-1", 100, "USD"⟩] false]).1 =
      [⟨"inv-1", "ac-1", 100, "USD"⟩] ∧
    (Ingestion.bulk_create_commitments
        [⟨"Alice", "PE", 100, "USD"⟩]
        [("Alice", "inv-1")] [("PE", "ac-1")]
        [Ingestion.ComPage.resp 200 [⟨"inv-1", "ac-1", 100, "USD"⟩] false]
        (Ingestion.ComBulkOutcome.resp 200 1)).2 =
      [Ingestion.Call.getCommitmentsPage 1,
       Ingestion.Call.postBulkCommitments [⟨"inv-1", "ac-1", 100, "USD"⟩]] := by
  refine ⟨rfl, ?_, ?_⟩ <;>
    simp [Ingestion.buildBulkCommitments, Ingestion.bulk_create_commitments,
      Ingestion._fetch_existing_commitments, Ingestion.fetchCommitmentPagesLoop,
      dget, truthyId]

/-! ## C2: aggregation convergence -/

theorem int_log2_eq (r : ℚ) (e : ℤ) (hr : 0 < r)
    (h1 : (2 : ℚ) ^ e ≤ r) (h2 : r < (2 : ℚ) ^ (e + 1)) : Int.log 2 r = e := by
  have hb : 1 < (2 : ℕ) := by norm_num
  have a1 : e ≤ Int.log 2 r := by
    rw [← Int.zpow_le_iff_le_log hb hr]
    exact_mod_cast h1
  have a2 : Int.log 2 r < e + 1 := by
    rw [← Int.lt_zpow_iff_log_lt hb hr]
    exact_mod_cast h2
  omega

/-- A positive rational whose 53-bit scaled form is an integer is a
binary64 value and is fixed by the rounding. -/
theorem roundDouble_fix (q : ℚ) (e n : ℤ) (hq : 0 < q)
    (h1 : (2 : ℚ) ^ e ≤ q) (h2 : q < (2 : ℚ) ^ (e + 1))
    (hu : q * 2 ^ (52 - e) = (n : ℚ)) : InvestorSvc.roundDouble q = q := by
  have habs : |q| = q := abs_of_pos hq
  have hlog : Int.log 2 q = e := int_log2_eq q e hq h1 h2
  have hne : q ≠ 0 := ne_of_gt hq
  have hnlt : ¬ q < 0 := not_lt.mpr (le_of_lt hq)
  unfold InvestorSvc.roundDouble
  rw [if_neg hne]
  simp only [habs, hlog, hu, Int.floor_intCast, sub_self, if_neg hnlt]
  rw [if_pos (by norm_num : (0 : ℚ) < 1 / 2)]
  have hq2 : q = (n : ℚ) * 2 ^ (e - 52) := by
    have h2ne : (2 : ℚ) ≠ 0 := by norm_num
    calc q = q * (2 ^ (52 - e) * 2 ^ (e - 52)) := by
              rw [← zpow_add₀ h2ne]; norm_num
    _ = (q * 2 ^ (52 - e)) * 2 ^ (e - 52) := by ring
    _ = (n : ℚ) * 2 ^ (e - 52) := by rw [hu]
  rw [one_mul, ← hq2]

/-- A positive rational exactly halfway between two consecutive 53-bit
values rounds to the even neighbour. -/
theorem roundDouble_tie_even (q : ℚ) (e n : ℤ) (hq : 0 < q)
    (h1 : (2 : ℚ) ^ e ≤ q) (h2 : q < (2 : ℚ) ^ (e + 1))
    (hu : q * 2 ^ (52 - e) = (n : ℚ) + 1 / 2) (hev : 2 ∣ n) :
    InvestorSvc.roundDouble q = (n : ℚ) * 2 ^ (e - 52) := by
  have habs : |q| = q := abs_of_pos hq
  have hlog : Int.log 2 q = e := int_log2_eq q e hq h1 h2
  have hne : q ≠ 0 := ne_of_gt hq
  have hnlt : ¬ q < 0 := not_lt.mpr (le_of_lt hq)
  unfold InvestorSvc.roundDouble
  rw [if_neg hne]
  have hfl : ⌊(n : ℚ) + 1 / 2⌋ = n := by
    rw [Int.floor_eq_iff]
    constructor
    · norm_num
    · norm_num
  have hdiff : (n : ℚ) + 1 / 2 - (n : ℚ) = 1 / 2 := by ring
  simp only [habs, hlog, hu, hfl, hdiff, if_neg hnlt]
  rw [if_neg (by norm_num : ¬ ((1 : ℚ) / 2 < 1 / 2)),
    if_neg (by norm_num : ¬ ((1 : ℚ) / 2 < 1 / 2)), if_pos hev, one_mul]

theorem rd_2p53 : InvestorSvc.roundDouble 9007199254740992 = 9007199254740992 := by
  have := roundDouble_fix 9007199254740992 53 4503599627370496 (by norm_num)
    (by norm_num) (by norm_num) (by norm_num)
  simpa using this

theorem rd_2p53_succ : InvestorSvc.roundDouble 9007199254740993 = 9007199254740992 := by
  have := roundDouble_tie_even 9007199254740993 53 4503599627370496 (by norm_num)
    (by norm_num) (by norm_num) (by norm_num) (by norm_num)
  rw [this]
  norm_num

theorem rd_2p53_add2 : InvestorSvc.roundDouble 9007199254740994 = 9007199254740994 := by
  have := roundDouble_fix 9007199254740994 53 4503599627370497 (by norm_num)
    (by norm_num) (by norm_num) (by norm_num)
  simpa using this

theorem rd_one : InvestorSvc.roundDouble 1 = 1 := by
  have := roundDouble_fix 1 0 4503599627370496 (by norm_num)
    (by norm_num) (by norm_num) (by norm_num)
  simpa using this

theorem rd_two : InvestorSvc.roundDouble 2 = 2 := by
  have := roundDouble_fix 2 1 4503599627370496 (by norm_num)
    (by norm_num) (by norm_num) (by norm_num)
  simpa using this

theorem consumeAllExact_closed (c0 : ℕ) (t0 : ℚ) (l : List ℚ) :
    InvestorSvc.consumeAllExact ⟨c0, t0⟩ l = ⟨c0 + l.length, t0 + l.sum⟩ := by
  induction l generalizing c0 t0 with
  | nil => simp [InvestorSvc.consumeAllExact]
  | cons a rest ih =>
      simp only [InvestorSvc.consumeAllExact, List.foldl_cons,
        InvestorSvc.applyCommitmentEventExact] at ih ⊢
      rw [ih]
      simp only [List.length_cons, List.sum_cons, InvestorSvc.InvestorAgg.mk.injEq]
      constructor
      · omega
      · ring

/-- C2 as stated fails on the code: the handler adds exactly (Python
`Decimal`), but `update_commitment_metrics` persists the running total
through `float(total_amount)`, and binary64 rounding is not independent
of the delivery order. With amounts [2^53, 1, 1] (2^53 =
9007199254740992), delivering the large amount first makes both `+1`
events round away (ties-to-even at the 2-ulp spacing), ending at total
2^53, while delivering it last ends at total 2^53 + 2 — the same
multiset of events, two different final aggregates. -/
theorem c2_counterexample :
    ([(9007199254740992 : ℚ), 1, 1].Perm [1, 1, (9007199254740992 : ℚ)]) ∧
    InvestorSvc.consumeAll ⟨0, 0⟩ [(9007199254740992 : ℚ), 1, 1] ≠
      InvestorSvc.consumeAll ⟨0, 0⟩ [1, 1, (9007199254740992 : ℚ)] := by
  constructor
  · exact List.Perm.trans (List.Perm.swap 1 9007199254740992 [1])
      (List.Perm.cons 1 (List.Perm.swap 1 9007199254740992 []))
  · have s1 : InvestorSvc.applyCommitmentEvent ⟨0, 0⟩ 9007199254740992 =
        ⟨1, 9007199254740992⟩ := by
      unfold InvestorSvc.applyCommitmentEvent
      norm_num [rd_2p53]
    have s2 : InvestorSvc.applyCommitmentEvent ⟨1, 9007199254740992⟩ 1 =
        ⟨2, 9007199254740992⟩ := by
      unfold InvestorSvc.applyCommitmentEvent
      norm_num [rd_2p53_succ]
    have s3 : InvestorSvc.applyCommitmentEvent ⟨2, 9007199254740992⟩ 1 =
        ⟨3, 9007199254740992⟩ := by
      unfold InvestorSvc.applyCommitmentEvent
      norm_num [rd_2p53_succ]
    have t1 : InvestorSvc.applyCommitmentEvent ⟨0, 0⟩ 1 = ⟨1, 1⟩ := by
      unfold InvestorSvc.applyCommitmentEvent
      norm_num [rd_one]
    have t2 : InvestorSvc.applyCommitmentEvent ⟨1, 1⟩ 1 = ⟨2, 2⟩ := by
      unfold InvestorSvc.applyCommitmentEvent
      norm_num [rd_two]
    have t3 : InvestorSvc.applyCommitmentEvent ⟨2, 2⟩ 9007199254740992 =
        ⟨3, 9007199254740994⟩ := by
      unfold InvestorSvc.applyCommitmentEvent
      norm_num [rd_2p53_add2]
    simp only [InvestorSvc.consumeAll, List.foldl_cons, List.foldl_nil,
      s1, s2, s3, t1, t2, t3]
    intro h
    have := congrArg InvestorSvc.InvestorAgg.total_commitment_amount h
    norm_num at this

/-- C2 amended: the order-independence and the closed form (c0 + n,
t0 + sum) hold for the handler's own arithmetic, which is exact — i.e.
whenever the float conversion at the persistence boundary is exact on
every intermediate total, as it is for the amounts [100, 250, 50] of the
stated example; the float conversion breaks the general statement (see
the counterexample). -/
theorem c2_amended (c0 : ℕ) (t0 : ℚ) (l1 l2 : List ℚ) (hp : l1.Perm l2) :
    InvestorSvc.consumeAllExact ⟨c0, t0⟩ l1 = InvestorSvc.consumeAllExact ⟨c0, t0⟩ l2 ∧
    InvestorSvc.consumeAllExact ⟨c0, t0⟩ l1 = ⟨c0 + l1.length, t0 + l1.sum⟩ := by
  refine ⟨?_, consumeAllExact_closed c0 t0 l1⟩
  rw [consumeAllExact_closed, consumeAllExact_closed, hp.length_eq, hp.sum_eq]

/-- Witness for C2 at the example of the stated property: amounts
[100, 250, 50] in two orders both end at count 3, total 400. -/
theorem c2_amended_witness :
    InvestorSvc.consumeAllExact ⟨0, 0⟩ [(100 : ℚ), 250, 50] =
      InvestorSvc.consumeAllExact ⟨0, 0⟩ [(50 : ℚ), 100, 250] ∧
    InvestorSvc.consumeAllExact ⟨0, 0⟩ [(100 : ℚ), 250, 50] = ⟨3, 400⟩ := by
  have hp : ([(100 : ℚ), 250, 50]).Perm [(50 : ℚ), 100, 250] :=
    List.Perm.trans (List.Perm.cons 100 (List.Perm.swap 50 250 []))
      (List.Perm.swap 50 100 [250])
  have h := c2_amended 0 0 [(100 : ℚ), 250, 50] [(50 : ℚ), 100, 250] hp
  refine ⟨h.1, ?_⟩
  rw [h.2]
  norm_num

/-! ## Characterization of the insert-if-truthy folds -/

theorem dmem_iff_keys (m : Dict) (x : String) :
    dmem m x = true ↔ x ∈ m.map (·.1) := by
  induction m with
  | nil => simp [dmem, dget]
  | cons p rest ih =>
      by_cases hp : p.1 = x
      · simp [dmem, dget, hp]
      · simp only [dmem, dget, if_neg hp, List.map_cons, List.mem_cons]
        rw [← dmem]
        constructor
        · intro h
          exact Or.inr (ih.mp h)
        · rintro (h | h)
          · exact absurd h.symm hp
          · exact ih.mpr h

theorem find_pairs_none {γ : Type} (pairs : List (String × γ)) (x : String)
    (hx : x ∉ pairs.map (·.1)) :
    pairs.find? (fun q => q.1 = x) = none := by
  induction pairs with
  | nil => rfl
  | cons q rest ih =>
      simp only [List.map_cons, List.mem_cons, not_or] at hx
      have hqx : ¬ q.1 = x := fun h => hx.1 h.symm
      rw [List.find?_cons_of_neg, ih hx.2]
      simp [hqx]

theorem find_pairs_of_mem {γ : Type} (pairs : List (String × γ))
    (hnd : (pairs.map (·.1)).Nodup) (pr : String × γ) (hpr : pr ∈ pairs) :
    pairs.find? (fun q => q.1 = pr.1) = some pr := by
  induction pairs with
  | nil => cases hpr
  | cons q rest ih =>
      simp only [List.map_cons, List.nodup_cons] at hnd
      rcases List.mem_cons.mp hpr with h | h
      · subst h
        rw [List.find?_cons_of_pos]
        simp
      · have hq : q.1 ≠ pr.1 := by
          intro he
          exact hnd.1 (he ▸ List.mem_map_of_mem (·.1) h)
        rw [List.find?_cons_of_neg, ih hnd.2 h]
        simp [hq]

theorem dget_fold_insert_of_not_mem (pairs : List (String × Option String))
    (m : Dict) (x : String) (hx : x ∉ pairs.map (·.1)) :
    dget (pairs.foldl (fun acc q => insertIfTruthy acc q.1 q.2) m) x = dget m x := by
  induction pairs generalizing m with
  | nil => rfl
  | cons q rest ih =>
      simp only [List.map_cons, List.mem_cons, not_or] at hx
      have hqx : ¬ q.1 = x := fun h => hx.1 h.symm
      rw [List.foldl_cons, ih _ hx.2, dget_insertIfTruthy, if_neg hqx]

theorem dget_fold_insert_of_mem (pairs : List (String × Option String))
    (m : Dict) (pr : String × Option String)
    (hnd : (pairs.map (·.1)).Nodup) (hpr : pr ∈ pairs) :
    dget (pairs.foldl (fun acc q => insertIfTruthy acc q.1 q.2) m) pr.1 =
      (match truthyId pr.2 with
       | some v => some v
       | none => dget m pr.1) := by
  induction pairs generalizing m with
  | nil => cases hpr
  | cons q rest ih =>
      simp only [List.map_cons, List.nodup_cons] at hnd
      rcases List.mem_cons.mp hpr with h | h
      · subst h
        have hx : pr.1 ∉ rest.map (·.1) := hnd.1
        rw [List.foldl_cons, dget_fold_insert_of_not_mem rest _ pr.1 hx,
          dget_insertIfTruthy, if_pos rfl]
      · have hq : q.1 ≠ pr.1 := by
          intro he
          exact hnd.1 (he ▸ List.mem_map_of_mem (·.1) h)
        rw [List.foldl_cons, ih _ hnd.2 h]
        cases htr : truthyId pr.2 with
        | some v => rfl
        | none => simp only [dget_insertIfTruthy, if_neg hq]

/-! ## C4: the individual-create fallback -/

/-- C4: when the bulk asset-class create fails with a transport error or
any non-2xx status, the fallback issues one create call for every one of
the N entities (the call trace lists them all), per-entity outcomes are
independent, and the final mapping contains exactly the names whose
individual create returned HTTP 201 with a truthy id: a requested name
maps to precisely the id its own create produced, and nothing else is in
the mapping. -/
theorem c4_fallback_covers_all (items : List (String × Ingestion.AssetClassData))
    (out : Ingestion.BulkRespOutcome) (indiv : String → Ingestion.ACCreateOutcome)
    (hnd : (items.map (·.1)).Nodup) (hne : items ≠ [])
    (hfail : out = Ingestion.BulkRespOutcome.exc ∨
      ∃ status body, out = Ingestion.BulkRespOutcome.resp status body ∧
        (status < 200 ∨ 300 ≤ status)) :
    (Ingestion._bulk_create_asset_classes items out indiv).2 =
      Ingestion.Call.postBulkAssetClasses items.length ::
        items.map (fun p => Ingestion.Call.postAssetClass p.1) ∧
    (∀ p ∈ items, dget (Ingestion._bulk_create_asset_classes items out indiv).1 p.1 =
      truthyId (Ingestion._create_single_asset_class (indiv p.1))) ∧
    (∀ x, x ∉ items.map (·.1) →
      dget (Ingestion._bulk_create_asset_classes items out indiv).1 x = none) := by
  have hbody : Ingestion._bulk_create_asset_classes items out indiv =
      (let fb := Ingestion._create_asset_classes_individually_fallback items indiv
       (fb.1, Ingestion.Call.postBulkAssetClasses items.length :: fb.2)) := by
    rcases hfail with h | ⟨status, body, h, hs⟩
    · subst h
      simp [Ingestion._bulk_create_asset_classes, hne]
    · subst h
      have h200 : status ≠ 200 := by omega
      simp [Ingestion._bulk_create_asset_classes, hne, h200]
  rw [hbody]
  have hfold : (Ingestion._create_asset_classes_individually_fallback items indiv).1 =
      (items.map (fun p => (p.1, Ingestion._create_single_asset_class (indiv p.1)))).foldl
        (fun acc q => insertIfTruthy acc q.1 q.2) [] := by
    rw [List.foldl_map]
    rfl
  have hkeys : ((items.map (fun p =>
      (p.1, Ingestion._create_single_asset_class (indiv p.1)))).map (·.1)) =
      items.map (·.1) := by
    simp [List.map_map]
  refine ⟨by simp [Ingestion._create_asset_classes_individually_fallback], ?_, ?_⟩
  · intro p hp
    simp only [hfold]
    have hpr : (p.1, Ingestion._create_single_asset_class (indiv p.1)) ∈
        items.map (fun p => (p.1, Ingestion._create_single_asset_class (indiv p.1))) :=
      List.mem_map_of_mem _ hp
    have := dget_fold_insert_of_mem _ [] _ (by rw [hkeys]; exact hnd) hpr
    rw [this]
    cases htr : truthyId (Ingestion._create_single_asset_class (indiv p.1)) <;>
      simp [htr, dget]
  · intro x hx
    simp only [hfold]
    rw [dget_fold_insert_of_not_mem _ _ _ (by rw [hkeys]; exact hx)]
    rfl

/-- Witness for C4: four entities, bulk create rejected with HTTP 503,
individual creates succeed for two of them — exactly those two end up in
the mapping, and all four create calls are issued. -/
theorem c4_fallback_covers_all_witness :
    (Ingestion._bulk_create_asset_classes
        [("n1", ⟨"d1", "active"⟩), ("n2", ⟨"d2", "active"⟩),
         ("n3", ⟨"d3", "active"⟩), ("n4", ⟨"d4", "active"⟩)]
        (Ingestion.BulkRespOutcome.resp 503 none)
        (fun n =>
          if n = "n1" then Ingestion.ACCreateOutcome.resp 201 (some ("id1")) none
          else if n = "n2" then Ingestion.ACCreateOutcome.resp 500 none none
          else if n = "n3" then Ingestion.ACCreateOutcome.exc
          else Ingestion.ACCreateOutcome.resp 201 none (some ("id4")))).2 =
      [Ingestion.Call.postBulkAssetClasses 4, Ingestion.Call.postAssetClass ("n1"),
       Ingestion.Call.postAssetClass ("n2"), Ingestion.Call.postAssetClass ("n3"),
       Ingestion.Call.postAssetClass ("n4")] ∧
    dget (Ingestion._bulk_create_asset_classes
        [("n1", ⟨"d1", "active"⟩), ("n2", ⟨"d2", "active"⟩),
         ("n3", ⟨"d3", "active"⟩), ("n4", ⟨"d4", "active"⟩)]
        (Ingestion.BulkRespOutcome.resp 503 none)
        (fun n =>
          if n = "n1" then Ingestion.ACCreateOutcome.resp 201 (some ("id1")) none
          else if n = "n2" then Ingestion.ACCreateOutcome.resp 500 none none
          else if n = "n3" then Ingestion.ACCreateOutcome.exc
          else Ingestion.ACCreateOutcome.resp 201 none (some ("id4")))).1 ("n1") =
      some ("id1") ∧
    dget (Ingestion._bulk_create_asset_classes
        [("n1", ⟨"d1", "active"⟩), ("n2", ⟨"d2", "active"⟩),
         ("n3", ⟨"d3", "active"⟩), ("n4", ⟨"d4", "active"⟩)]
        (Ingestion.BulkRespOutcome.resp 503 none)
        (fun n =>
          if n = "n1" then Ingestion.ACCreateOutcome.resp 201 (some ("id1")) none
          else if n = "n2" then Ingestion.ACCreateOutcome.resp 500 none none
          else if n = "n3" then Ingestion.ACCreateOutcome.exc
          else Ingestion.ACCreateOutcome.resp 201 none (some ("id4")))).1 ("n2") =
      none ∧
    dget (Ingestion._bulk_create_asset_classes
        [("n1", ⟨"d1", "active"⟩), ("n2", ⟨"d2", "active"⟩),
         ("n3", ⟨"d3", "active"⟩), ("n4", ⟨"d4", "active"⟩)]
        (Ingestion.BulkRespOutcome.resp 503 none)
        (fun n =>
          if n = "n1" then Ingestion.ACCreateOutcome.resp 201 (some ("id1")) none
          else if n = "n2" then Ingestion.ACCreateOutcome.resp 500 none none
          else if n = "n3" then Ingestion.ACCreateOutcome.exc
          else Ingestion.ACCreateOutcome.resp 201 none (some ("id4")))).1 ("n3") =
      none ∧
    dget (Ingestion._bulk_create_asset_classes
        [("n1", ⟨"d1", "active"⟩), ("n2", ⟨"d2", "active"⟩),
         ("n3", ⟨"d3", "active"⟩), ("n4", ⟨"d4", "active"⟩)]
        (Ingestion.BulkRespOutcome.resp 503 none)
        (fun n =>
          if n = "n1" then Ingestion.ACCreateOutcome.resp 201 (some ("id1")) none
          else if n = "n2" then Ingestion.ACCreateOutcome.resp 500 none none
          else if n = "n3" then Ingestion.ACCreateOutcome.exc
          else Ingestion.ACCreateOutcome.resp 201 none (some ("id4")))).1 ("n4") =
      some ("id4") := by
  have h := c4_fallback_covers_all
    [("n1", ⟨"d1", "active"⟩), ("n2", ⟨"d2", "active"⟩),
     ("n3", ⟨"d3", "active"⟩), ("n4", ⟨"d4", "active"⟩)]
    (Ingestion.BulkRespOutcome.resp 503 none)
    (fun n =>
      if n = "n1" then Ingestion.ACCreateOutcome.resp 201 (some ("id1")) none
      else if n = "n2" then Ingestion.ACCreateOutcome.resp 500 none none
      else if n = "n3" then Ingestion.ACCreateOutcome.exc
      else Ingestion.ACCreateOutcome.resp 201 none (some ("id4")))
    (by simp) (by simp) (Or.inr ⟨503, none, rfl, by omega⟩)
  refine ⟨by rw [h.1]; rfl, ?_, ?_, ?_, ?_⟩
  · have := h.2.1 ("n1", ⟨"d1", "active"⟩) (by simp)
    simpa using this
  · have := h.2.1 ("n2", ⟨"d2", "active"⟩) (by simp)
    simpa using this
  · have := h.2.1 ("n3", ⟨"d3", "active"⟩) (by simp)
    simpa using this
  · have := h.2.1 ("n4", ⟨"d4", "active"⟩) (by simp)
    simpa using this

/-! ## C7: the positional zip of bulk responses -/

theorem map_fst_zip_take {α β : Type} (l1 : List α) (l2 : List β) :
    (l1.zip l2).map (·.1) = l1.take l2.length := by
  induction l1 generalizing l2 with
  | nil => simp
  | cons a rest ih =>
      cases l2 with
      | nil => simp
      | cons b rest2 => simp [ih]

theorem zipBulkIds_eq (names : List String) (body : List Ingestion.RespItem)
    (k : Nat) (m : Dict) :
    Ingestion.zipBulkIds names body k m =
      ((names.drop k).zip body).foldl (fun acc q => insertIfTruthy acc q.1 q.2.id) m := by
  induction body generalizing k m with
  | nil => simp [Ingestion.zipBulkIds]
  | cons it rest ih =>
      by_cases hk : k < names.length
      · have hdrop : names.drop k = names.getD k "" :: names.drop (k + 1) := by
          rw [List.getD_eq_getElem names "" hk]
          exact List.drop_eq_getElem_cons hk
        rw [hdrop]
        simp only [Ingestion.zipBulkIds, if_pos hk, List.zip_cons_cons, List.foldl_cons]
        exact ih (k + 1) _
      · have hd : names.drop k = [] := by
          rw [List.drop_eq_nil_iff]
          omega
        have hd2 : names.drop (k + 1) = [] := by
          rw [List.drop_eq_nil_iff]
          omega
        simp only [Ingestion.zipBulkIds, if_neg hk, hd, List.zip_nil_left, List.foldl_nil]
        rw [ih (k + 1) m, hd2]
        rfl

/-- The name-to-id content of the positional zip: with distinct request
names, each zipped (name, response item) pair maps the name to that
item's truthy id, and every requested name beyond the end of the
response body is absent. -/
theorem zip_dget_char (names : List String) (body : List Ingestion.RespItem)
    (hnd : names.Nodup) :
    (∀ pr ∈ names.zip body,
      dget (Ingestion.zipBulkIds names body 0 []) pr.1 = truthyId pr.2.id) ∧
    (∀ x ∈ names.drop body.length,
      dget (Ingestion.zipBulkIds names body 0 []) x = none) := by
  rw [zipBulkIds_eq, List.drop_zero]
  have hfold : (names.zip body).foldl (fun acc q => insertIfTruthy acc q.1 q.2.id) [] =
      ((names.zip body).map (fun q => (q.1, q.2.id))).foldl
        (fun acc q => insertIfTruthy acc q.1 q.2) [] := by
    rw [List.foldl_map]
  have hkeys : ((names.zip body).map (fun q => (q.1, q.2.id))).map (·.1) =
      names.take body.length := by
    rw [List.map_map]
    exact map_fst_zip_take names body
  have hndk : (((names.zip body).map (fun q => (q.1, q.2.id))).map (·.1)).Nodup := by
    rw [hkeys]
    exact (List.take_sublist _ _).nodup hnd
  constructor
  · intro pr hpr
    rw [hfold]
    have hpr2 : (pr.1, pr.2.id) ∈ (names.zip body).map (fun q => (q.1, q.2.id)) :=
      List.mem_map_of_mem _ hpr
    have := dget_fold_insert_of_mem _ [] _ hndk hpr2
    rw [this]
    cases htr : truthyId pr.2.id <;> simp [htr, dget]
  · intro x hx
    rw [hfold]
    have hsplit : (names.take body.length ++ names.drop body.length).Nodup := by
      rw [List.take_append_drop]
      exact hnd
    have hdisj := (List.nodup_append.mp hsplit).2.2
    have hxt : x ∉ names.take body.length := fun hmem => hdisj hmem hx
    rw [dget_fold_insert_of_not_mem _ _ _ (by rw [hkeys]; exact hxt)]
    rfl

/-- C7 as stated is refuted: the managers accept only status exactly
200, not every 2xx response. A bulk create answered 201 with a
well-formed singleton list body does not get zipped — the manager takes
the non-200 branch and falls back to individual creates, so when those
fail, the requested name is absent instead of mapping to the response id
as the positional-zip reading requires. -/
theorem c7_counterexample :
    ¬ (dget (Ingestion._bulk_create_asset_classes [("x", ⟨"d", "active"⟩)]
        (Ingestion.BulkRespOutcome.resp 201 (some [⟨some ("a")⟩]))
        (fun _ => Ingestion.ACCreateOutcome.exc)).1 ("x") = some ("a")) := by
  have : (Ingestion._bulk_create_asset_classes [("x", ⟨"d", "active"⟩)]
      (Ingestion.BulkRespOutcome.resp 201 (some [⟨some ("a")⟩]))
      (fun _ => Ingestion.ACCreateOutcome.exc)).1 = [] := rfl
  rw [this]
  simp [dget]

/-- C7 amended: for a bulk-create request of n entities answered with
status exactly 200 and a list body of length m, both managers zip the
response back positionally — each of the first min(n, m) requested names
maps to the truthy id of the response element in its position, the
trailing names beyond m are silently left unresolved (absent from the
mapping), and no fallback or further call is issued. -/
theorem c7_positional_zip :
    (∀ (items : List (String × Ingestion.AssetClassData))
        (body : List Ingestion.RespItem) (indiv : String → Ingestion.ACCreateOutcome),
      (items.map (·.1)).Nodup → items ≠ [] →
      (Ingestion._bulk_create_asset_classes items
          (Ingestion.BulkRespOutcome.resp 200 (some body)) indiv).2 =
        [Ingestion.Call.postBulkAssetClasses items.length] ∧
      (∀ pr ∈ (items.map (·.1)).zip body,
        dget (Ingestion._bulk_create_asset_classes items
            (Ingestion.BulkRespOutcome.resp 200 (some body)) indiv).1 pr.1 =
          truthyId pr.2.id) ∧
      (∀ x ∈ (items.map (·.1)).drop body.length,
        dget (Ingestion._bulk_create_asset_classes items
            (Ingestion.BulkRespOutcome.resp 200 (some body)) indiv).1 x = none)) ∧
    (∀ (items : List (String × Ingestion.InvestorData))
        (body : List Ingestion.RespItem) (indiv : String → Ingestion.InvCreateOutcome),
      (items.map (·.1)).Nodup → items ≠ [] →
      (Ingestion._bulk_create_investors items
          (Ingestion.BulkRespOutcome.resp 200 (some body)) indiv).2 =
        [Ingestion.Call.postBulkInvestors items.length] ∧
      (∀ pr ∈ (items.map (·.1)).zip body,
        dget (Ingestion._bulk_create_investors items
            (Ingestion.BulkRespOutcome.resp 200 (some body)) indiv).1 pr.1 =
          truthyId pr.2.id) ∧
      (∀ x ∈ (items.map (·.1)).drop body.length,
        dget (Ingestion._bulk_create_investors items
            (Ingestion.BulkRespOutcome.resp 200 (some body)) indiv).1 x = none)) := by
  constructor
  · intro items body indiv hnd hne
    have hval : (Ingestion._bulk_create_asset_classes items
        (Ingestion.BulkRespOutcome.resp 200 (some body)) indiv).1 =
        Ingestion.zipBulkIds (items.map (·.1)) body 0 [] := by
      simp [Ingestion._bulk_create_asset_classes, hne]
    have hcalls : (Ingestion._bulk_create_asset_classes items
        (Ingestion.BulkRespOutcome.resp 200 (some body)) indiv).2 =
        [Ingestion.Call.postBulkAssetClasses items.length] := by
      simp [Ingestion._bulk_create_asset_classes, hne]
    have hchar := zip_dget_char (items.map (·.1)) body hnd
    exact ⟨hcalls, by rw [hval]; exact hchar.1, by rw [hval]; exact hchar.2⟩
  · intro items body indiv hnd hne
    have hval : (Ingestion._bulk_create_investors items
        (Ingestion.BulkRespOutcome.resp 200 (some body)) indiv).1 =
        Ingestion.zipBulkIds (items.map (·.1)) body 0 [] := by
      simp [Ingestion._bulk_create_investors, hne]
    have hcalls : (Ingestion._bulk_create_investors items
        (Ingestion.BulkRespOutcome.resp 200 (some body)) indiv).2 =
        [Ingestion.Call.postBulkInvestors items.length] := by
      simp [Ingestion._bulk_create_investors, hne]
    have hchar := zip_dget_char (items.map (·.1)) body hnd
    exact ⟨hcalls, by rw [hval]; exact hchar.1, by rw [hval]; exact hchar.2⟩

/-- Witness for C7: two asset classes requested, one response element —
the first name gets the returned id, the trailing name stays unresolved;
one investor requested with a matching response element gets its id. -/
theorem c7_positional_zip_witness :
    dget (Ingestion._bulk_create_asset_classes
        [("x", ⟨"dx", "active"⟩), ("y", ⟨"dy", "active"⟩)]
        (Ingestion.BulkRespOutcome.resp 200 (some [⟨some ("idx")⟩]))
        (fun _ => Ingestion.ACCreateOutcome.exc)).1 ("x") = some ("idx") ∧
    dget (Ingestion._bulk_create_asset_classes
        [("x", ⟨"dx", "active"⟩), ("y", ⟨"dy", "active"⟩)]
        (Ingestion.BulkRespOutcome.resp 200 (some [⟨some ("idx")⟩]))
        (fun _ => Ingestion.ACCreateOutcome.exc)).1 ("y") = none ∧
    (Ingestion._bulk_create_asset_classes
        [("x", ⟨"dx", "active"⟩), ("y", ⟨"dy", "active"⟩)]
        (Ingestion.BulkRespOutcome.resp 200 (some [⟨some ("idx")⟩]))
        (fun _ => Ingestion.ACCreateOutcome.exc)).2 =
      [Ingestion.Call.postBulkAssetClasses 2] ∧
    dget (Ingestion._bulk_create_investors [("u", ⟨"t", "c", "d"⟩)]
        (Ingestion.BulkRespOutcome.resp 200 (some [⟨some ("idu")⟩]))
        (fun _ => Ingestion.InvCreateOutcome.exc)).1 ("u") = some ("idu") := by
  have hac := c7_positional_zip.1
    [("x", ⟨"dx", "active"⟩), ("y", ⟨"dy", "active"⟩)] [⟨some ("idx")⟩]
    (fun _ => Ingestion.ACCreateOutcome.exc) (by simp) (by simp)
  have hinv := c7_positional_zip.2 [("u", ⟨"t", "c", "d"⟩)] [⟨some ("idu")⟩]
    (fun _ => Ingestion.InvCreateOutcome.exc) (by simp) (by simp)
  refine ⟨?_, ?_, hac.1, ?_⟩
  · have := hac.2.1 (("x" : String), (⟨some ("idx")⟩ : Ingestion.RespItem)) (by simp)
    simpa [truthyId] using this
  · have := hac.2.2 ("y") (by simp)
    simpa using this
  · have := hinv.2.1 (("u" : String), (⟨some ("idu")⟩ : Ingestion.RespItem)) (by simp)
    simpa [truthyId] using this

/-! ## C10: resolver output keys come from the requested names -/

theorem mem_map_fst_filter {β : Type} (l : List (String × β)) (pred : String × β → Bool)
    (x : String) (h : x ∈ (l.filter pred).map (·.1)) : x ∈ l.map (·.1) := by
  rcases List.mem_map.mp h with ⟨p, hp, rfl⟩
  exact List.mem_map_of_mem _ (List.mem_of_mem_filter hp)

theorem mem_names_of_mem_fst_filter_names {β : Type} (l : List (String × β))
    (names : List String) (x : String)
    (h : x ∈ (l.filter (fun p => p.1 ∈ names)).map (·.1)) : x ∈ names := by
  rcases List.mem_map.mp h with ⟨p, hp, rfl⟩
  have := List.of_mem_filter hp
  exact of_decide_eq_true this

theorem dmem_zipBulkIds (names : List String) (body : List Ingestion.RespItem)
    (k : Nat) (m : Dict) (x : String)
    (h : dmem (Ingestion.zipBulkIds names body k m) x = true) :
    x ∈ names ∨ dmem m x = true := by
  induction body generalizing k m with
  | nil => exact Or.inr h
  | cons it rest ih =>
      rcases ih (k + 1) _ h with h1 | h2
      · exact Or.inl h1
      · by_cases hk : k < names.length
        · rw [if_pos hk] at h2
          unfold dmem at h2
          rw [dget_insertIfTruthy] at h2
          by_cases hg : names.getD k "" = x
          · refine Or.inl ?_
            rw [← hg, List.getD_eq_getElem names "" hk]
            exact List.getElem_mem hk
          · rw [if_neg hg] at h2
            exact Or.inr h2
        · rw [if_neg hk] at h2
          exact Or.inr h2

theorem ac_fetch_keys (names : List String) (out : Option (List (String × String)))
    (x : String)
    (h : dmem (Ingestion._fetch_existing_asset_classes names out).1 x = true) :
    x ∈ names := by
  cases out with
  | none => cases h
  | some l =>
      rcases dmem_foldl_dput _ [] x h with h1 | h2
      · exact mem_names_of_mem_fst_filter_names l names x h1
      · cases h2

theorem inv_fetch_keys (names : List String) (pages : List Ingestion.InvPage)
    (x : String)
    (h : dmem (Ingestion._fetch_existing_investors names pages).1 x = true) :
    x ∈ names := by
  simp only [Ingestion._fetch_existing_investors] at h
  cases hr : (Ingestion.fetchInvestorPagesLoop pages 1 []).1 with
  | none =>
      rw [hr] at h
      cases h
  | some all =>
      rw [hr] at h
      rcases dmem_foldl_dput _ [] x h with h1 | h2
      · exact mem_names_of_mem_fst_filter_names all names x h1
      · cases h2

theorem ac_bulk_keys (items : List (String × Ingestion.AssetClassData))
    (out : Ingestion.BulkRespOutcome) (indiv : String → Ingestion.ACCreateOutcome)
    (x : String)
    (h : dmem (Ingestion._bulk_create_asset_classes items out indiv).1 x = true) :
    x ∈ items.map (·.1) := by
  by_cases hi : items = []
  · subst hi
    simp only [Ingestion._bulk_create_asset_classes, if_pos rfl] at h
    cases h
  · rcases out with _ | ⟨status, body⟩
    · simp only [Ingestion._bulk_create_asset_classes,
        Ingestion._create_asset_classes_individually_fallback, if_neg hi] at h
      rcases dmem_foldl_insertIfTruthy items
        (fun p => Ingestion._create_single_asset_class (indiv p.1)) [] x h with h1 | h2
      · exact h1
      · cases h2
    · by_cases hs : status = 200
      · subst hs
        simp only [Ingestion._bulk_create_asset_classes, if_neg hi, if_pos rfl] at h
        cases body with
        | none => cases h
        | some l =>
            rcases dmem_zipBulkIds _ l 0 [] x h with h1 | h2
            · exact h1
            · cases h2
      · simp only [Ingestion._bulk_create_asset_classes,
          Ingestion._create_asset_classes_individually_fallback, if_neg hi, if_neg hs] at h
        rcases dmem_foldl_insertIfTruthy items
          (fun p => Ingestion._create_single_asset_class (indiv p.1)) [] x h with h1 | h2
        · exact h1
        · cases h2

theorem inv_bulk_keys (items : List (String × Ingestion.InvestorData))
    (out : Ingestion.BulkRespOutcome) (indiv : String → Ingestion.InvCreateOutcome)
    (x : String)
    (h : dmem (Ingestion._bulk_create_investors items out indiv).1 x = true) :
    x ∈ items.map (·.1) := by
  by_cases hi : items = []
  · subst hi
    simp only [Ingestion._bulk_create_investors, if_pos rfl] at h
    cases h
  · rcases out with _ | ⟨status, body⟩
    · simp only [Ingestion._bulk_create_investors,
        Ingestion._create_investors_individually_fallback, if_neg hi] at h
      rcases dmem_foldl_insertIfTruthy items
        (fun p => Ingestion._create_single_investor (indiv p.1)) [] x h with h1 | h2
      · exact h1
      · cases h2
    · by_cases hs : status = 200
      · subst hs
        simp only [Ingestion._bulk_create_investors, if_neg hi, if_pos rfl] at h
        cases body with
        | none => cases h
        | some l =>
            rcases dmem_zipBulkIds _ l 0 [] x h with h1 | h2
            · exact h1
            · cases h2
      · simp only [Ingestion._bulk_create_investors,
          Ingestion._create_investors_individually_fallback, if_neg hi, if_neg hs] at h
        rcases dmem_foldl_insertIfTruthy items
          (fun p => Ingestion._create_single_investor (indiv p.1)) [] x h with h1 | h2
        · exact h1
        · cases h2

/-- C10: every key of the mapping returned by either entity resolver is
one of the requested input names — snapshot entries are filtered against
the requested names before insertion, bulk-zip keys come from the
request order, and fallback keys come from the request items, so no
entity outside the input batch ever appears in the output mapping. -/
theorem c10_resolver_keys_subset :
    (∀ (items : List (String × Ingestion.AssetClassData))
        (fetchOut : Option (List (String × String)))
        (bulkOut : Ingestion.BulkRespOutcome)
        (indiv : String → Ingestion.ACCreateOutcome) (x : String),
      dmem (Ingestion.bulk_create_asset_classes items fetchOut bulkOut indiv).1 x = true →
        x ∈ items.map (·.1)) ∧
    (∀ (items : List (String × Ingestion.InvestorData))
        (pages : List Ingestion.InvPage)
        (bulkOut : Ingestion.BulkRespOutcome)
        (indiv : String → Ingestion.InvCreateOutcome) (x : String),
      dmem (Ingestion.bulk_create_investors items pages bulkOut indiv).1 x = true →
        x ∈ items.map (·.1)) := by
  constructor
  · intro items fetchOut bulkOut indiv x h
    by_cases hi : items = []
    · subst hi
      simp only [Ingestion.bulk_create_asset_classes, if_pos rfl] at h
      cases h
    · simp only [Ingestion.bulk_create_asset_classes, if_neg hi] at h
      by_cases hnew : items.filter
          (fun p => ¬ dmem (Ingestion._fetch_existing_asset_classes
            (items.map (·.1)) fetchOut).1 p.1) = []
      · rw [if_pos hnew] at h
        exact ac_fetch_keys _ fetchOut x h
      · rw [if_neg hnew] at h
        rcases dmem_dupdate _ _ x h with h1 | h2
        · exact ac_fetch_keys _ fetchOut x h1
        · have hm := (dmem_iff_keys _ x).mpr h2
          have := ac_bulk_keys _ bulkOut indiv x hm
          exact mem_map_fst_filter items _ x this
  · intro items pages bulkOut indiv x h
    by_cases hi : items = []
    · subst hi
      simp only [Ingestion.bulk_create_investors, if_pos rfl] at h
      cases h
    · simp only [Ingestion.bulk_create_investors, if_neg hi] at h
      by_cases hnew : items.filter
          (fun p => ¬ dmem (Ingestion._fetch_existing_investors
            (items.map (·.1)) pages).1 p.1) = []
      · rw [if_pos hnew] at h
        exact inv_fetch_keys _ pages x h
      · rw [if_neg hnew] at h
        rcases dmem_dupdate _ _ x h with h1 | h2
        · exact inv_fetch_keys _ pages x h1
        · have hm := (dmem_iff_keys _ x).mpr h2
          have := inv_bulk_keys _ bulkOut indiv x hm
          exact mem_map_fst_filter items _ x this

/-- Witness for C10 at concrete runs of both resolvers. -/
theorem c10_resolver_keys_subset_witness :
    ("PE" : String) ∈ ([("PE", (⟨"d", "active"⟩ : Ingestion.AssetClassData))].map (·.1)) ∧
    ("Ann" : String) ∈ ([("Ann", (⟨"t", "c", "d"⟩ : Ingestion.InvestorData))].map (·.1)) := by
  constructor
  · exact c10_resolver_keys_subset.1 [("PE", ⟨"d", "active"⟩)]
      (some [("PE", "ac-1")]) (Ingestion.BulkRespOutcome.exc)
      (fun _ => Ingestion.ACCreateOutcome.exc) ("PE") (by rfl)
  · exact c10_resolver_keys_subset.2 [("Ann", ⟨"t", "c", "d"⟩)]
      [Ingestion.InvPage.resp 200 [("Ann", "inv-1")] false]
      (Ingestion.BulkRespOutcome.exc)
      (fun _ => Ingestion.InvCreateOutcome.exc) ("Ann") (by rfl)

/-! ## C5: partial resolution and the run status -/

theorem buildBulkCommitments_aux (rows : List Ingestion.CommitmentData)
    (inv ac : Dict) (acc : List Ingestion.CommitmentCreateRequest) :
    rows.foldl (fun acc c =>
      match truthyId (dget inv c.investor_name),
            truthyId (dget ac c.asset_class_name) with
      | some iid, some aid =>
          if (⟨iid, aid, c.amount, c.currency⟩ : Ingestion.DedupKey) ∈
              ([] : List Ingestion.DedupKey) then acc
          else acc ++ [⟨iid, aid, c.amount, c.currency⟩]
      | _, _ => acc) acc =
    acc ++ rows.filterMap (fun c =>
      match truthyId (dget inv c.investor_name),
            truthyId (dget ac c.asset_class_name) with
      | some iid, some aid =>
          some (⟨iid, aid, c.amount, c.currency⟩ : Ingestion.CommitmentCreateRequest)
      | _, _ => none) := by
  induction rows generalizing acc with
  | nil => simp
  | cons c rest ih =>
      rw [List.foldl_cons, List.filterMap_cons]
      cases h1 : truthyId (dget inv c.investor_name) with
      | none => simpa [h1] using ih acc
      | some iid =>
          cases h2 : truthyId (dget ac c.asset_class_name) with
          | none => simpa [h1, h2] using ih acc
          | some aid =>
              simp only [h1, h2]
              rw [if_neg (List.not_mem_nil _)]
              rw [ih]
              simp

/-- With the (always empty) pre-fetched dedup set, the commitment bulk
request body is exactly the rows whose two names resolve to truthy ids. -/
theorem buildBulkCommitments_char (rows : List Ingestion.CommitmentData)
    (inv ac : Dict) :
    Ingestion.buildBulkCommitments rows inv ac [] =
      rows.filterMap (fun c =>
        match truthyId (dget inv c.investor_name),
              truthyId (dget ac c.asset_class_name) with
        | some iid, some aid =>
            some (⟨iid, aid, c.amount, c.currency⟩ : Ingestion.CommitmentCreateRequest)
        | _, _ => none) := by
  unfold Ingestion.buildBulkCommitments
  exact buildBulkCommitments_aux rows inv ac []

/-- C5 as stated is refuted at a corner the code treats as fatal: with
two candidate investors of which exactly one resolves (partial success),
but whose only commitment row references the unresolved investor, the
orchestrator returns status `failed` (`No valid commitments: missing
dependencies`), not `completed`. -/
theorem c5_counterexample :
    (Ingestion.bulk_create_investors
        [("A", ⟨"t", "c", "d"⟩), ("B", ⟨"t", "c", "d"⟩)]
        [Ingestion.InvPage.resp 200 [("A", "inv-1")] false]
        Ingestion.BulkRespOutcome.exc
        (fun _ => Ingestion.InvCreateOutcome.exc)).1 = [("A", "inv-1")] ∧
    (Ingestion.process_dataframe true
        [("A", ⟨"t", "c", "d"⟩), ("B", ⟨"t", "c", "d"⟩)]
        [("X", ⟨"d", "active"⟩)]
        [⟨"B", "X", 100, "USD"⟩]
        ⟨some [("X", "ac-1")], Ingestion.BulkRespOutcome.exc,
         fun _ => Ingestion.ACCreateOutcome.exc,
         [Ingestion.InvPage.resp 200 [("A", "inv-1")] false],
         Ingestion.BulkRespOutcome.exc,
         fun _ => Ingestion.InvCreateOutcome.exc,
         [], Ingestion.ComBulkOutcome.exc⟩).1.status = "failed" := by
  exact ⟨rfl, rfl⟩

/-- C5 amended: commitments whose investor and asset-class names both
resolved are exactly the ones accepted into the bulk-create body, rows
referencing an unresolved name are excluded, and the run completes with
status `completed` and the reduced counts PROVIDED at least one row
passes the dependency check; a partial resolution that leaves zero
acceptable rows is instead reported as a failed run (see the
counterexample), as is a first-stage resolution with zero successes on a
non-empty input. -/
theorem c5_partial_resolution_completes
    (investors : List (String × Ingestion.InvestorData))
    (acItems : List (String × Ingestion.AssetClassData))
    (comms : List Ingestion.CommitmentData) (env : Ingestion.IngestEnv)
    (h1 : ¬ ((Ingestion.bulk_create_asset_classes acItems env.acFetch env.acBulk
        env.acIndiv).1.length = 0 ∧ acItems.length > 0))
    (h2 : ¬ ((Ingestion.bulk_create_investors investors env.invPages env.invBulk
        env.invIndiv).1.length = 0 ∧ investors.length > 0))
    (h3 : ¬ (Ingestion._count_valid_commitments comms
        (Ingestion.bulk_create_investors investors env.invPages env.invBulk
          env.invIndiv).1
        (Ingestion.bulk_create_asset_classes acItems env.acFetch env.acBulk
          env.acIndiv).1 = 0)) :
    (Ingestion.process_dataframe true investors acItems comms env).1 =
      ⟨"completed", none,
       (Ingestion.bulk_create_asset_classes acItems env.acFetch env.acBulk
         env.acIndiv).1.length,
       (Ingestion.bulk_create_investors investors env.invPages env.invBulk
         env.invIndiv).1.length,
       (Ingestion.bulk_create_commitments comms
         (Ingestion.bulk_create_investors investors env.invPages env.invBulk
           env.invIndiv).1
         (Ingestion.bulk_create_asset_classes acItems env.acFetch env.acBulk
           env.acIndiv).1 env.comPages env.comBulk).1⟩ ∧
    Ingestion.buildBulkCommitments comms
        (Ingestion.bulk_create_investors investors env.invPages env.invBulk
          env.invIndiv).1
        (Ingestion.bulk_create_asset_classes acItems env.acFetch env.acBulk
          env.acIndiv).1
        (Ingestion._fetch_existing_commitments env.comPages).1 =
      comms.filterMap (fun c =>
        match truthyId (dget (Ingestion.bulk_create_investors investors env.invPages
                env.invBulk env.invIndiv).1 c.investor_name),
              truthyId (dget (Ingestion.bulk_create_asset_classes acItems env.acFetch
                env.acBulk env.acIndiv).1 c.asset_class_name) with
        | some iid, some aid =>
            some (⟨iid, aid, c.amount, c.currency⟩ : Ingestion.CommitmentCreateRequest)
        | _, _ => none) := by
  constructor
  · simp only [Ingestion.process_dataframe]
    rw [if_neg (by simp : ¬ (true = false)), if_neg h1, if_neg h2, if_neg h3]
  · rw [fetch_existing_commitments_nil, buildBulkCommitments_char]

/-- Witness for C5: two investors, one resolving; the commitment rows
reference one resolved and one unresolved investor; the run completes
with the reduced counts and the accepted body holds exactly the resolved
row. -/
theorem c5_partial_resolution_completes_witness :
    (Ingestion.process_dataframe true
        [("A", ⟨"t", "c", "d"⟩), ("B", ⟨"t", "c", "d"⟩)]
        [("X", ⟨"d", "active"⟩)]
        [⟨"A", "X", 100, "USD"⟩, ⟨"B", "X", 50, "USD"⟩]
        ⟨some [("X", "ac-1")], Ingestion.BulkRespOutcome.exc,
         fun _ => Ingestion.ACCreateOutcome.exc,
         [Ingestion.InvPage.resp 200 [("A", "inv-1")] false],
         Ingestion.BulkRespOutcome.exc,
         fun _ => Ingestion.InvCreateOutcome.exc,
         [], Ingestion.ComBulkOutcome.resp 200 1⟩).1 =
      ⟨"completed", none, 1, 1, 1⟩ ∧
    Ingestion.buildBulkCommitments
        [⟨"A", "X", 100, "USD"⟩, ⟨"B", "X", 50, "USD"⟩]
        [("A", "inv-1")] [("X", "ac-1")] [] =
      [⟨"inv-1", "ac-1", 100, "USD"⟩] := by
  have h := c5_partial_resolution_completes
    [("A", ⟨"t", "c", "d"⟩), ("B", ⟨"t", "c", "d"⟩)]
    [("X", ⟨"d", "active"⟩)]
    [⟨"A", "X", 100, "USD"⟩, ⟨"B", "X", 50, "USD"⟩]
    ⟨some [("X", "ac-1")], Ingestion.BulkRespOutcome.exc,
     fun _ => Ingestion.ACCreateOutcome.exc,
     [Ingestion.InvPage.resp 200 [("A", "inv-1")] false],
     Ingestion.BulkRespOutcome.exc,
     fun _ => Ingestion.InvCreateOutcome.exc,
     [], Ingestion.ComBulkOutcome.resp 200 1⟩
    (by intro hc; exact absurd hc.1 (by decide))
    (by intro hc; exact absurd hc.1 (by decide))
    (by intro hc; exact absurd hc (by decide))
  exact ⟨h.1.trans (by rfl), (by rfl : Ingestion.buildBulkCommitments
    [⟨"A", "X", 100, "USD"⟩, ⟨"B", "X", 50, "USD"⟩]
    [("A", "inv-1")] [("X", "ac-1")] [] = [⟨"inv-1", "ac-1", 100, "USD"⟩])⟩
